import Mathlib

/-!
Shallow embedding of `src/main.py`: a single-endpoint websocket service that
decodes a base64-encoded video frame, runs an external hand-landmark estimator
(MediaPipe Hands) over it, applies the `detect_palm` heuristic, and replies
with one of the tokens "start", "wait", "error".

Modelling decisions:
* Python `str` payloads coming in over the websocket are modelled as `List Char`
  (so that `str.split(',')` can be reasoned about structurally); the outgoing
  tokens are Lean `String`s, matching the three fixed literals of the source.
* Landmark coordinates are normalized floats in the source; they are modelled
  as rationals, so the order comparisons of `detect_palm` are exact.
* The external collaborators (`base64.b64decode`, `PIL.Image.open` + `np.array`,
  and the MediaPipe `Hands` object) are parameters of the embedding: they are
  third-party libraries, not part of this repository.  A Python call that may
  raise is modelled as returning `Option`/`none` for the raising case.
* `Hands` is constructed once with `static_image_mode=False` (video mode with
  tracking), so its `process` method is modelled as a transition on an abstract
  internal state `σ` that is threaded through the session loop, exactly as the
  single global `hands` object is reused across frames in the source.
* The `websocket_endpoint` loop is driven by a finite list of per-iteration
  transport events: what `receive_text` returned (a message, or a raise for a
  transport failure / peer close), and whether each `send_text` attempt of the
  iteration succeeds or raises.
-/

namespace MainPy

/-- One MediaPipe hand landmark: normalized coordinates `x`, `y` and depth `z`
(`landmark.x`, `landmark.y`, `landmark.z` in the source). -/
structure Landmark where
  x : ℚ
  y : ℚ
  z : ℚ
deriving DecidableEq

/-- A detected hand's landmark set: the fixed MediaPipe schema of 21 named
points (`hand_landmarks.landmark[i]`). -/
abbrev HandLandmarks := Fin 21 → Landmark

/-- `mp_hands.HandLandmark.WRIST` -/
def WRIST : Fin 21 := 0

/-- `mp_hands.HandLandmark.THUMB_TIP` -/
def THUMB_TIP : Fin 21 := 4

/-- `mp_hands.HandLandmark.INDEX_FINGER_TIP` -/
def INDEX_FINGER_TIP : Fin 21 := 8

/-- `mp_hands.HandLandmark.PINKY_TIP` -/
def PINKY_TIP : Fin 21 := 20

/-- One pixel: three channel values in storage order (`c0`, `c1`, `c2`).
Whether the triple means RGB or BGR is a convention of the surrounding code,
which is exactly what the `cvtColor` calls manipulate. -/
structure Px where
  c0 : ℕ
  c1 : ℕ
  c2 : ℕ
deriving DecidableEq

/-- A decoded raster image: rows of pixels (shape height × width × 3). -/
abbrev Img := List (List Px)

/-- Swap the first and third channel of a pixel (what both
`cv2.COLOR_RGB2BGR` and `cv2.COLOR_BGR2RGB` do pointwise). -/
def swapRB (p : Px) : Px := ⟨p.c2, p.c1, p.c0⟩

/-- `cv2.cvtColor(img, cv2.COLOR_RGB2BGR)` (line 74): reverse the channel
order of every pixel. -/
def cvtColor_RGB2BGR (img : Img) : Img := img.map (fun row => row.map swapRB)

/-- `cv2.cvtColor(image, cv2.COLOR_BGR2RGB)` (line 32): reverse the channel
order of every pixel. -/
def cvtColor_BGR2RGB (img : Img) : Img := img.map (fun row => row.map swapRB)

/-- The external MediaPipe `Hands` estimator (constructed once at lines 23-28
with `static_image_mode=False`, `max_num_hands=1`, detection and tracking
confidence 0.7).  Because `static_image_mode=False` selects video mode with
cross-frame tracking, `process` is a transition on an abstract internal state
`σ`.  The returned `Option` models `results.multi_hand_landmarks`: `none` means
the call raised, `some []` means no hand was reported (a falsy
`multi_hand_landmarks`), `some (h :: rest)` means hands were reported. -/
structure Hands (σ : Type) where
  process : σ → Img → σ × Option (List HandLandmarks)

/-- Lines 49-53: `thumb.y < wrist.y and index.y < wrist.y and pinky.y < wrist.y`
for the four named landmarks of one hand. -/
def fingers_extended (hand : HandLandmarks) : Bool :=
  decide ((hand THUMB_TIP).y < (hand WRIST).y) &&
  decide ((hand INDEX_FINGER_TIP).y < (hand WRIST).y) &&
  decide ((hand PINKY_TIP).y < (hand WRIST).y)

/-- `detect_palm(image)` (lines 30-57): convert BGR→RGB, run the estimator,
and if a hand was detected return `fingers_extended` of the first hand,
otherwise `False`.  The result is `none` when `hands.process` raised
(an estimation error), paired with the estimator's successor state. -/
def detect_palm {σ : Type} (M : Hands σ) (st : σ) (image : Img) :
    σ × Option Bool :=
  let image_rgb := cvtColor_BGR2RGB image
  match M.process st image_rgb with
  | (st', none) => (st', none)
  | (st', some multi_hand_landmarks) =>
    match multi_hand_landmarks with
    | [] => (st', some false)
    | hand_landmarks :: _ => (st', some (fingers_extended hand_landmarks))

/-- Python `str.split(',')`: split a string at every comma; always returns at
least one (possibly empty) group. -/
def splitComma : List Char → List (List Char)
  | [] => [[]]
  | c :: cs =>
    if c = ',' then [] :: splitComma cs
    else
      match splitComma cs with
      | [] => [[c]]
      | g :: gs => (c :: g) :: gs

/-- `data.split(',')[1]` (line 70): the segment between the first and the
second comma of the input.  `none` models the `IndexError` raised when the
input contains no comma. -/
def payload_segment (data : List Char) : Option (List Char) :=
  (splitComma data).get? 1

/-- Modelled from the spec (for comparison with `payload_segment` only, not
taken from the source): "splits on the first comma and discards everything
before it" — the entire remainder of the input after its first comma, `none`
when there is no comma. -/
def specRemainderAfterFirstComma : List Char → Option (List Char)
  | [] => none
  | c :: cs => if c = ',' then some cs else specRemainderAfterFirstComma cs

/-- The external decode collaborators used by the per-frame pipeline:
`base64.b64decode` (line 70) producing bytes, and `PIL.Image.open` over those
bytes followed by `np.array` (lines 71-74) producing an RGB raster.  `none`
models any exception raised by the library call (invalid base64, corrupt or
unsupported image data, wrong shape). -/
structure DecodePipe where
  b64decode : List Char → Option (List ℕ)
  image_open : List ℕ → Option Img

/-- The body of the inner `try` (lines 68-77): select the payload segment,
base64-decode it, open it as an image, convert the RGB raster to OpenCV's BGR
order, and run `detect_palm`.  The result is `none` exactly when some step
raised; the estimator state is threaded through (unchanged when the raise
happens before `hands.process`). -/
def process_frame {σ : Type} (D : DecodePipe) (M : Hands σ) (st : σ)
    (data : List Char) : σ × Option Bool :=
  match payload_segment data with
  | none => (st, none)
  | some seg =>
    match D.b64decode seg with
    | none => (st, none)
    | some img_data =>
      match D.image_open img_data with
      | none => (st, none)
      | some img =>
        let opencv_img := cvtColor_RGB2BGR img
        detect_palm M st opencv_img

/-- The token the handler tries to send for one frame's processing outcome:
`"start" if palm_detected else "wait"` (line 80) on success, `"error"`
(line 84) when processing raised. -/
def response_token : Option Bool → String
  | some true => "start"
  | some false => "wait"
  | none => "error"

/-- Outcome of one `websocket.receive_text()` call: a received message, or a
raise (transport-level read failure or peer close). -/
inductive RecvEvent where
  | msg (data : List Char)
  | fail
deriving DecidableEq

/-- Transport events of one iteration of the `while True` loop: the receive
outcome, and whether the first and (if attempted) second `send_text` call of
the iteration succeeds (`false` = the send raises). -/
structure FrameEvent where
  recv : RecvEvent
  send1Ok : Bool
  send2Ok : Bool
deriving DecidableEq

/-- Connection state of the session loop: `Open` while the loop is still
running, `Closed` once the handler has returned (outer `except` at line 86). -/
inductive ConnState where
  | Open
  | Closed
deriving DecidableEq

/-- `websocket_endpoint` (lines 59-87), driven by a finite list of transport
events: returns the successfully sent tokens in order, and whether the loop has
terminated (`Closed`) or is still running when the events run out (`Open`).
Control flow of one iteration: a raising receive ends the loop (outer
`except`); otherwise the frame is processed, and on success the verdict token
is sent; a raise during processing or during that send is caught by the inner
`except`, which sends `"error"`; a raise during the `"error"` send propagates
to the outer `except` and ends the loop. -/
def websocket_endpoint {σ : Type} (D : DecodePipe) (M : Hands σ) :
    σ → List FrameEvent → List String × ConnState
  | _, [] => ([], ConnState.Open)
  | st, e :: es =>
    match e.recv with
    | RecvEvent.fail => ([], ConnState.Closed)
    | RecvEvent.msg data =>
      match process_frame D M st data with
      | (st', some v) =>
        if e.send1Ok then
          let r := websocket_endpoint D M st' es
          ((if v then "start" else "wait") :: r.1, r.2)
        else if e.send2Ok then
          let r := websocket_endpoint D M st' es
          ("error" :: r.1, r.2)
        else ([], ConnState.Closed)
      | (st', none) =>
        if e.send1Ok then
          let r := websocket_endpoint D M st' es
          ("error" :: r.1, r.2)
        else ([], ConnState.Closed)

/-! ### Concrete instances used by witnesses and counterexamples -/

/-- A landmark set whose three reference fingertips lie above the wrist
(image y grows downward), so `fingers_extended` holds. -/
def openHand : HandLandmarks := fun i => if i = WRIST then ⟨0, 1, 0⟩ else ⟨0, 0, 0⟩

/-- A landmark set with every point at the origin, so `fingers_extended`
fails (tips level with the wrist). -/
def flatHand : HandLandmarks := fun _ => ⟨0, 0, 0⟩

/-- A decode pipeline whose library calls always succeed (any payload
base64-decodes, any bytes open as an empty raster). -/
def exD : DecodePipe := ⟨fun _ => some [], fun _ => some []⟩

/-- A memoryless estimator that always reports exactly the hand `openHand`. -/
def exM : Hands Unit := ⟨fun st _ => (st, some [openHand])⟩

/-- A memoryless estimator that never reports a hand. -/
def noHandM : Hands Unit := ⟨fun st _ => (st, some [])⟩

/-- A memoryless estimator that reports two hands: `openHand` first, then
`flatHand`. -/
def twoHandM : Hands Unit := ⟨fun st _ => (st, some [openHand, flatHand])⟩

/-- A tracking-style estimator with cross-frame state (a frame counter):
it reports no hand on the very first frame it ever processes and `openHand`
on every later frame.  It conforms to the interface the source constructs at
lines 23-28 (`static_image_mode=False` selects exactly such stateful,
tracking-based behaviour). -/
def statefulM : Hands ℕ := ⟨fun n _ => (n + 1, some (if n = 0 then [] else [openHand]))⟩

/-- A well-formed inbound message: metadata `m`, then the payload `x`. -/
def exData : List Char := ['m', ',', 'x']

/-- An inbound message whose remainder after the first comma itself contains
a comma: `m,QUJD,REVG`. -/
def exData3 : List Char := ['m', ',', 'Q', 'U', 'J', 'D', ',', 'R', 'E', 'V', 'G']

/-! ### Helper lemmas -/

theorem swapRB_swapRB (p : Px) : swapRB (swapRB p) = p := rfl

/-- The two `cvtColor` calls compose to the identity on rasters. -/
theorem cvtColor_roundtrip (img : Img) : cvtColor_BGR2RGB (cvtColor_RGB2BGR img) = img := by
  simp [cvtColor_BGR2RGB, cvtColor_RGB2BGR, List.map_map, Function.comp_def, swapRB_swapRB]

theorem splitComma_ne_nil (s : List Char) : splitComma s ≠ [] := by
  induction s with
  | nil => simp [splitComma]
  | cons c cs ih =>
    by_cases hc : c = ','
    · simp [splitComma, hc]
    · rcases h : splitComma cs with _ | ⟨g, gs⟩
      · exact absurd h ih
      · simp [splitComma, hc, h]

/-- `data.split(',')[1]` is exactly the group of the remainder after the first
comma up to the remainder's own next comma — in particular it is a function of
that remainder. -/
theorem payload_segment_eq (s : List Char) :
    payload_segment s =
      (specRemainderAfterFirstComma s).map (fun t => (splitComma t).headD []) := by
  induction s with
  | nil => rfl
  | cons c cs ih =>
    by_cases hc : c = ','
    · subst hc
      rcases h : splitComma cs with _ | ⟨g, gs⟩
      · exact absurd h (splitComma_ne_nil cs)
      · simp [payload_segment, splitComma, specRemainderAfterFirstComma, h]
    · rcases h : splitComma cs with _ | ⟨g, gs⟩
      · exact absurd h (splitComma_ne_nil cs)
      · have hsplit : splitComma (c :: cs) = (c :: g) :: gs := by
          simp [splitComma, hc, h]
        have hrem : specRemainderAfterFirstComma (c :: cs) =
            specRemainderAfterFirstComma cs := by
          simp [specRemainderAfterFirstComma, hc]
        rw [payload_segment, hsplit, hrem, ← ih, payload_segment, h]
        rfl

/-- A message without a comma has no remainder after a first comma. -/
theorem specRemainder_eq_none (s : List Char) (h : ',' ∉ s) :
    specRemainderAfterFirstComma s = none := by
  induction s with
  | nil => rfl
  | cons c cs ih =>
    simp only [List.mem_cons, not_or] at h
    have hc : ¬(c = ',') := fun hh => h.1 hh.symm
    simp [specRemainderAfterFirstComma, hc, ih h.2]

theorem payload_segment_no_comma (s : List Char) (h : ',' ∉ s) :
    payload_segment s = none := by
  rw [payload_segment_eq, specRemainder_eq_none s h]
  rfl

theorem process_frame_no_comma {σ : Type} (D : DecodePipe) (M : Hands σ) (st : σ)
    (data : List Char) (h : ',' ∉ data) : process_frame D M st data = (st, none) := by
  simp [process_frame, payload_segment_no_comma data h]

/-- One loop iteration, success path: message received, processing succeeded,
verdict send succeeded. -/
theorem run_ok {σ : Type} (D : DecodePipe) (M : Hands σ) (st st' : σ)
    (e : FrameEvent) (es : List FrameEvent) (data : List Char) (v : Bool)
    (hrecv : e.recv = RecvEvent.msg data)
    (hpf : process_frame D M st data = (st', some v))
    (h1 : e.send1Ok = true) :
    websocket_endpoint D M st (e :: es) =
      ((if v then "start" else "wait") :: (websocket_endpoint D M st' es).1,
       (websocket_endpoint D M st' es).2) := by
  simp [websocket_endpoint, hrecv, hpf, h1]

/-- One loop iteration: the verdict send raised, the fallback `"error"` send
succeeded. -/
theorem run_ok_retry {σ : Type} (D : DecodePipe) (M : Hands σ) (st st' : σ)
    (e : FrameEvent) (es : List FrameEvent) (data : List Char) (v : Bool)
    (hrecv : e.recv = RecvEvent.msg data)
    (hpf : process_frame D M st data = (st', some v))
    (h1 : e.send1Ok = false) (h2 : e.send2Ok = true) :
    websocket_endpoint D M st (e :: es) =
      ("error" :: (websocket_endpoint D M st' es).1,
       (websocket_endpoint D M st' es).2) := by
  simp [websocket_endpoint, hrecv, hpf, h1, h2]

/-- One loop iteration: the verdict send raised and so did the fallback
`"error"` send — the loop terminates. -/
theorem run_ok_both_fail {σ : Type} (D : DecodePipe) (M : Hands σ) (st st' : σ)
    (e : FrameEvent) (es : List FrameEvent) (data : List Char) (v : Bool)
    (hrecv : e.recv = RecvEvent.msg data)
    (hpf : process_frame D M st data = (st', some v))
    (h1 : e.send1Ok = false) (h2 : e.send2Ok = false) :
    websocket_endpoint D M st (e :: es) = ([], ConnState.Closed) := by
  simp [websocket_endpoint, hrecv, hpf, h1, h2]

/-- One loop iteration, per-frame processing raised and the `"error"` send
succeeded. -/
theorem run_err {σ : Type} (D : DecodePipe) (M : Hands σ) (st st' : σ)
    (e : FrameEvent) (es : List FrameEvent) (data : List Char)
    (hrecv : e.recv = RecvEvent.msg data)
    (hpf : process_frame D M st data = (st', none))
    (h1 : e.send1Ok = true) :
    websocket_endpoint D M st (e :: es) =
      ("error" :: (websocket_endpoint D M st' es).1,
       (websocket_endpoint D M st' es).2) := by
  simp [websocket_endpoint, hrecv, hpf, h1]

/-- One loop iteration: per-frame processing raised and the `"error"` send
also raised — the loop terminates. -/
theorem run_err_fail {σ : Type} (D : DecodePipe) (M : Hands σ) (st st' : σ)
    (e : FrameEvent) (es : List FrameEvent) (data : List Char)
    (hrecv : e.recv = RecvEvent.msg data)
    (hpf : process_frame D M st data = (st', none))
    (h1 : e.send1Ok = false) :
    websocket_endpoint D M st (e :: es) = ([], ConnState.Closed) := by
  simp [websocket_endpoint, hrecv, hpf, h1]

/-- A trace without transport-level failures: every receive delivers a
message and every first send attempt succeeds (so no second send is ever
attempted). -/
def cleanEvents (evs : List FrameEvent) : Prop :=
  ∀ e ∈ evs, (∃ s, e.recv = RecvEvent.msg s) ∧ e.send1Ok = true

/-- Without transport failures the loop stays `Open` and answers every
message with exactly one token. -/
theorem run_clean {σ : Type} (D : DecodePipe) (M : Hands σ) :
    ∀ (st : σ) (evs : List FrameEvent), cleanEvents evs →
      (websocket_endpoint D M st evs).2 = ConnState.Open ∧
      (websocket_endpoint D M st evs).1.length = evs.length := by
  intro st evs
  induction evs generalizing st with
  | nil => intro _; exact ⟨rfl, rfl⟩
  | cons e es ih =>
    intro hclean
    obtain ⟨⟨s, hrecv⟩, h1⟩ := hclean e (List.mem_cons_self e es)
    have htail : cleanEvents es := fun x hx => hclean x (List.mem_cons_of_mem e hx)
    rcases hpf : process_frame D M st s with ⟨st', r⟩
    rcases r with _ | v
    · rw [run_err D M st st' e es s hrecv hpf h1]
      exact ⟨(ih st' htail).1, by simp [(ih st' htail).2]⟩
    · rw [run_ok D M st st' e es s v hrecv hpf h1]
      exact ⟨(ih st' htail).1, by simp [(ih st' htail).2]⟩

/-- At most one token is sent per loop iteration. -/
theorem run_length_le {σ : Type} (D : DecodePipe) (M : Hands σ) :
    ∀ (st : σ) (evs : List FrameEvent),
      (websocket_endpoint D M st evs).1.length ≤ evs.length := by
  intro st evs
  induction evs generalizing st with
  | nil => simp [websocket_endpoint]
  | cons e es ih =>
    rcases hrecv : e.recv with data | _
    · rcases hpf : process_frame D M st data with ⟨st', r⟩
      rcases r with _ | v
      · rcases h1 : e.send1Ok with _ | _
        · rw [run_err_fail D M st st' e es data hrecv hpf h1]; simp
        · rw [run_err D M st st' e es data hrecv hpf h1]
          simpa using ih st'
      · rcases h1 : e.send1Ok with _ | _
        · rcases h2 : e.send2Ok with _ | _
          · rw [run_ok_both_fail D M st st' e es data v hrecv hpf h1 h2]; simp
          · rw [run_ok_retry D M st st' e es data v hrecv hpf h1 h2]
            simpa using ih st'
        · rw [run_ok D M st st' e es data v hrecv hpf h1]
          simpa using ih st'
    · simp [websocket_endpoint, hrecv]

/-- Every token the loop ever sends is one of the three fixed strings. -/
theorem run_tokens_mem {σ : Type} (D : DecodePipe) (M : Hands σ) :
    ∀ (st : σ) (evs : List FrameEvent) (t : String),
      t ∈ (websocket_endpoint D M st evs).1 →
      t = "start" ∨ t = "wait" ∨ t = "error" := by
  intro st evs
  induction evs generalizing st with
  | nil => intro t ht; simp [websocket_endpoint] at ht
  | cons e es ih =>
    intro t ht
    rcases hrecv : e.recv with data | _
    · rcases hpf : process_frame D M st data with ⟨st', r⟩
      rcases r with _ | v
      · rcases h1 : e.send1Ok with _ | _
        · rw [run_err_fail D M st st' e es data hrecv hpf h1] at ht
          simp at ht
        · rw [run_err D M st st' e es data hrecv hpf h1] at ht
          rcases List.mem_cons.mp ht with h | h
          · exact Or.inr (Or.inr h)
          · exact ih st' t h
      · rcases h1 : e.send1Ok with _ | _
        · rcases h2 : e.send2Ok with _ | _
          · rw [run_ok_both_fail D M st st' e es data v hrecv hpf h1 h2] at ht
            simp at ht
          · rw [run_ok_retry D M st st' e es data v hrecv hpf h1 h2] at ht
            rcases List.mem_cons.mp ht with h | h
            · exact Or.inr (Or.inr h)
            · exact ih st' t h
        · rw [run_ok D M st st' e es data v hrecv hpf h1] at ht
          rcases List.mem_cons.mp ht with h | h
          · rcases v with _ | _
            · exact Or.inr (Or.inl (by simpa using h))
            · exact Or.inl (by simpa using h)
          · exact ih st' t h
    · rw [show websocket_endpoint D M st (e :: es) = ([], ConnState.Closed) by
        simp [websocket_endpoint, hrecv]] at ht
      simp at ht

/-- For a memoryless estimator, per-frame processing leaves the estimator
state unchanged and its outcome does not depend on that state. -/
theorem process_frame_pure {σ : Type} (D : DecodePipe) (M : Hands σ)
    (f : Img → Option (List HandLandmarks))
    (Hpure : ∀ st image, M.process st image = (st, f image))
    (st₁ st₂ : σ) (data : List Char) :
    (process_frame D M st₁ data).1 = st₁ ∧
    (process_frame D M st₁ data).2 = (process_frame D M st₂ data).2 := by
  rcases hseg : payload_segment data with _ | seg
  · simp [process_frame, hseg]
  rcases hb : D.b64decode seg with _ | bytes
  · simp [process_frame, hseg, hb]
  rcases hi : D.image_open bytes with _ | img
  · simp [process_frame, hseg, hb, hi]
  simp only [process_frame, hseg, hb, hi]
  simp only [detect_palm, Hpure]
  rcases f (cvtColor_BGR2RGB (cvtColor_RGB2BGR img)) with _ | hands
  · exact ⟨rfl, rfl⟩
  · rcases hands with _ | ⟨h, t⟩ <;> exact ⟨rfl, rfl⟩

/-- For a memoryless estimator, the tokens of a trace split at any clean
prefix. -/
theorem run_append_pure {σ : Type} (D : DecodePipe) (M : Hands σ)
    (f : Img → Option (List HandLandmarks))
    (Hpure : ∀ st image, M.process st image = (st, f image)) :
    ∀ (st : σ) (pre suf : List FrameEvent), cleanEvents pre →
      (websocket_endpoint D M st (pre ++ suf)).1 =
        (websocket_endpoint D M st pre).1 ++ (websocket_endpoint D M st suf).1 := by
  intro st pre suf
  induction pre generalizing st with
  | nil => intro _; simp [websocket_endpoint]
  | cons e es ih =>
    intro hclean
    obtain ⟨⟨s, hrecv⟩, h1⟩ := hclean e (List.mem_cons_self e es)
    have htail : cleanEvents es := fun x hx => hclean x (List.mem_cons_of_mem e hx)
    rcases hpf : process_frame D M st s with ⟨st', r⟩
    have hst : st' = st := by
      have hfst := (process_frame_pure D M f Hpure st st s).1
      rw [hpf] at hfst
      exact hfst
    rw [hst] at hpf
    rcases r with _ | v
    · rw [List.cons_append, run_err D M st st e (es ++ suf) s hrecv hpf h1,
          run_err D M st st e es s hrecv hpf h1]
      simp [ih st htail]
    · rw [List.cons_append, run_ok D M st st e (es ++ suf) s v hrecv hpf h1,
          run_ok D M st st e es s v hrecv hpf h1]
      simp [ih st htail]

/-- One received message answered with a successful send produces exactly
the token of its processing outcome. -/
theorem run_single_token {σ : Type} (D : DecodePipe) (M : Hands σ) (st : σ)
    (e : FrameEvent) (data : List Char)
    (hrecv : e.recv = RecvEvent.msg data) (h1 : e.send1Ok = true) :
    (websocket_endpoint D M st [e]).1 =
      [response_token (process_frame D M st data).2] := by
  rcases hpf : process_frame D M st data with ⟨st', r⟩
  rcases r with _ | v
  · rw [run_err D M st st' e [] data hrecv hpf h1]
    simp [websocket_endpoint, response_token]
  · rw [run_ok D M st st' e [] data v hrecv hpf h1]
    rcases v with _ | _ <;> simp [websocket_endpoint, response_token]

theorem getLast_append_one (l : List String) (a : String) :
    (l ++ [a]).getLast? = some a := by
  induction l with
  | nil => rfl
  | cons x xs ih =>
    rw [List.cons_append]
    rcases hxs : xs ++ [a] with _ | ⟨y, ys⟩
    · exact absurd hxs (by simp)
    · rw [List.getLast?_cons_cons, ← hxs, ih]

/-! ### Claims -/

/-- C1: for every frame in which the estimator detects a hand, `detect_palm`
returns true iff thumb tip y < wrist y, index fingertip y < wrist y and pinky
tip y < wrist y, and the verdict depends only on the y-coordinates of those
four landmarks of the first hand (x and z coordinates and all other landmarks
do not affect it). -/
theorem detect_palm_verdict_from_first_hand_y {σ : Type} (M : Hands σ)
    (st st' : σ) (image : Img) (hand : HandLandmarks) (rest : List HandLandmarks)
    (hdet : M.process st (cvtColor_BGR2RGB image) = (st', some (hand :: rest))) :
    detect_palm M st image = (st', some (fingers_extended hand)) ∧
    (fingers_extended hand = true ↔
      ((hand THUMB_TIP).y < (hand WRIST).y ∧
       (hand INDEX_FINGER_TIP).y < (hand WRIST).y ∧
       (hand PINKY_TIP).y < (hand WRIST).y)) ∧
    (∀ hand₂ : HandLandmarks,
       (hand₂ THUMB_TIP).y = (hand THUMB_TIP).y →
       (hand₂ INDEX_FINGER_TIP).y = (hand INDEX_FINGER_TIP).y →
       (hand₂ PINKY_TIP).y = (hand PINKY_TIP).y →
       (hand₂ WRIST).y = (hand WRIST).y →
       fingers_extended hand₂ = fingers_extended hand) := by
  refine ⟨by simp [detect_palm, hdet], ?_, ?_⟩
  · simp [fingers_extended, Bool.and_eq_true, decide_eq_true_iff, and_assoc]
  · intro hand₂ ht hi hp hw
    simp only [fingers_extended]
    rw [ht, hi, hp, hw]

theorem detect_palm_verdict_from_first_hand_y_witness :
    detect_palm exM () [] = ((), some (fingers_extended openHand)) :=
  (detect_palm_verdict_from_first_hand_y exM () () [] openHand [] rfl).1

/-- C5: for every frame in which the estimator detects no hand, the
classifier returns false, and when that frame's verdict is sent the response
token is "wait". -/
theorem no_hand_yields_false_and_wait {σ : Type} (D : DecodePipe) (M : Hands σ) :
    (∀ (st st' : σ) (image : Img),
       M.process st (cvtColor_BGR2RGB image) = (st', some []) →
       detect_palm M st image = (st', some false)) ∧
    (∀ (st st' : σ) (e : FrameEvent) (es : List FrameEvent) (data seg : List Char)
       (bytes : List ℕ) (img : Img),
       e.recv = RecvEvent.msg data → e.send1Ok = true →
       payload_segment data = some seg →
       D.b64decode seg = some bytes →
       D.image_open bytes = some img →
       M.process st (cvtColor_BGR2RGB (cvtColor_RGB2BGR img)) = (st', some []) →
       websocket_endpoint D M st (e :: es) =
         ("wait" :: (websocket_endpoint D M st' es).1,
          (websocket_endpoint D M st' es).2)) := by
  constructor
  · intro st st' image hdet
    simp [detect_palm, hdet]
  · intro st st' e es data seg bytes img hrecv h1 hseg hb hi hdet
    have hpf : process_frame D M st data = (st', some false) := by
      simp [process_frame, hseg, hb, hi, detect_palm, hdet]
    rw [run_ok D M st st' e es data false hrecv hpf h1]
    simp

theorem no_hand_yields_false_and_wait_witness :
    websocket_endpoint exD noHandM () [⟨RecvEvent.msg exData, true, true⟩] =
      ("wait" :: (websocket_endpoint exD noHandM () []).1,
       (websocket_endpoint exD noHandM () []).2) :=
  (no_hand_yields_false_and_wait exD noHandM).2 () ()
    ⟨RecvEvent.msg exData, true, true⟩ [] exData ['x'] [] []
    rfl rfl rfl rfl rfl rfl

/-- C6: the decoder's RGB→BGR conversion composed with the classifier's
BGR→RGB conversion is the identity on pixel data, so the estimator receives
exactly the RGB raster produced by image decoding. -/
theorem estimator_receives_decoded_rgb :
    (∀ img : Img, cvtColor_BGR2RGB (cvtColor_RGB2BGR img) = img) ∧
    (∀ (σ : Type) (D : DecodePipe) (M : Hands σ) (st : σ)
       (data seg : List Char) (bytes : List ℕ) (img : Img),
       payload_segment data = some seg →
       D.b64decode seg = some bytes →
       D.image_open bytes = some img →
       process_frame D M st data =
         (match M.process st img with
          | (st', none) => (st', none)
          | (st', some []) => (st', some false)
          | (st', some (hand :: _)) => (st', some (fingers_extended hand)))) := by
  refine ⟨cvtColor_roundtrip, ?_⟩
  intro σ D M st data seg bytes img hseg hb hi
  simp only [process_frame, hseg, hb, hi, detect_palm, cvtColor_roundtrip]
  rcases M.process st img with ⟨st', r⟩
  rcases r with _ | hands
  · rfl
  · rcases hands with _ | ⟨hand, t⟩ <;> rfl

theorem estimator_receives_decoded_rgb_witness :
    process_frame exD exM () exData =
      (match exM.process () [] with
       | (st', none) => (st', none)
       | (st', some []) => (st', some false)
       | (st', some (hand :: _)) => (st', some (fingers_extended hand))) :=
  estimator_receives_decoded_rgb.2 Unit exD exM () exData ['x'] [] [] rfl rfl rfl

/-- C8: when the estimator reports one or more hands, the verdict is computed
from the first reported hand only; additional hands never affect it (two
detection results with the same first hand but arbitrary further hands yield
the same verdict, and that verdict is `fingers_extended` of the first hand). -/
theorem detect_palm_ignores_extra_hands {σ₁ σ₂ : Type}
    (M₁ : Hands σ₁) (M₂ : Hands σ₂) (st₁ st₁' : σ₁) (st₂ st₂' : σ₂)
    (img₁ img₂ : Img) (hand : HandLandmarks)
    (rest₁ rest₂ : List HandLandmarks)
    (h₁ : M₁.process st₁ (cvtColor_BGR2RGB img₁) = (st₁', some (hand :: rest₁)))
    (h₂ : M₂.process st₂ (cvtColor_BGR2RGB img₂) = (st₂', some (hand :: rest₂))) :
    (detect_palm M₁ st₁ img₁).2 = (detect_palm M₂ st₂ img₂).2 ∧
    (detect_palm M₁ st₁ img₁).2 = some (fingers_extended hand) := by
  constructor
  · simp [detect_palm, h₁, h₂]
  · simp [detect_palm, h₁]

theorem detect_palm_ignores_extra_hands_witness :
    (detect_palm exM () []).2 = (detect_palm twoHandM () []).2 :=
  (detect_palm_ignores_extra_hands exM twoHandM () () () () [] [] openHand
    [] [flatHand] rfl rfl).1

/-- C2: any exception raised during per-frame processing is caught and
converted to the "error" token for that frame only — the loop goes on
processing the remaining events from the updated estimator state — and the
loop never leaves `Open` without a transport-level event: on any trace whose
receives all deliver messages and whose sends all succeed, the connection
stays `Open` (and every frame is answered), whatever processing errors
occur. -/
theorem per_frame_errors_do_not_close_connection {σ : Type}
    (D : DecodePipe) (M : Hands σ) :
    (∀ (st : σ) (e : FrameEvent) (es : List FrameEvent) (data : List Char),
       e.recv = RecvEvent.msg data → e.send1Ok = true →
       (process_frame D M st data).2 = none →
       websocket_endpoint D M st (e :: es) =
         ("error" :: (websocket_endpoint D M (process_frame D M st data).1 es).1,
          (websocket_endpoint D M (process_frame D M st data).1 es).2)) ∧
    (∀ (st : σ) (evs : List FrameEvent), cleanEvents evs →
       (websocket_endpoint D M st evs).2 = ConnState.Open ∧
       (websocket_endpoint D M st evs).1.length = evs.length) := by
  constructor
  · intro st e es data hrecv h1 hsnd
    rcases hpf : process_frame D M st data with ⟨st', r⟩
    rw [hpf] at hsnd
    rcases r with _ | v
    · exact run_err D M st st' e es data hrecv hpf h1
    · exact absurd hsnd (by simp)
  · exact run_clean D M

theorem per_frame_errors_do_not_close_connection_witness :
    websocket_endpoint exD exM () [⟨RecvEvent.msg ['n'], true, true⟩] =
      ("error" :: (websocket_endpoint exD exM
          ((process_frame exD exM () ['n']).1) []).1,
       (websocket_endpoint exD exM ((process_frame exD exM () ['n']).1) []).2) :=
  (per_frame_errors_do_not_close_connection exD exM).1 ()
    ⟨RecvEvent.msg ['n'], true, true⟩ [] ['n'] rfl rfl rfl

/-- C7: a message without a comma makes the payload selection raise, so that
frame is answered with "error" (when the send goes through), the estimator
state is untouched, the connection is not dropped by the input, and the loop
goes on to process the remaining events exactly as it would have. -/
theorem no_comma_yields_error_and_continues {σ : Type}
    (D : DecodePipe) (M : Hands σ) :
    (∀ data : List Char, ',' ∉ data → payload_segment data = none) ∧
    (∀ (st : σ) (data : List Char), ',' ∉ data →
       process_frame D M st data = (st, none)) ∧
    (∀ (st : σ) (e : FrameEvent) (es : List FrameEvent) (data : List Char),
       e.recv = RecvEvent.msg data → ',' ∉ data → e.send1Ok = true →
       websocket_endpoint D M st (e :: es) =
         ("error" :: (websocket_endpoint D M st es).1,
          (websocket_endpoint D M st es).2)) := by
  refine ⟨payload_segment_no_comma, process_frame_no_comma D M, ?_⟩
  intro st e es data hrecv hcomma h1
  exact run_err D M st st e es data hrecv (process_frame_no_comma D M st data hcomma) h1

theorem no_comma_yields_error_and_continues_witness :
    websocket_endpoint exD exM ()
        [⟨RecvEvent.msg ['n'], true, true⟩, ⟨RecvEvent.msg exData, true, true⟩] =
      ("error" :: (websocket_endpoint exD exM ()
          [⟨RecvEvent.msg exData, true, true⟩]).1,
       (websocket_endpoint exD exM () [⟨RecvEvent.msg exData, true, true⟩]).2) :=
  (no_comma_yields_error_and_continues exD exM).2.2 ()
    ⟨RecvEvent.msg ['n'], true, true⟩ [⟨RecvEvent.msg exData, true, true⟩] ['n']
    rfl (by decide) rfl

/-- C10: when per-frame processing succeeded but sending the verdict token
raises, the per-frame handler catches it and attempts to send "error" on the
same connection; the loop continues if that second send succeeds and
terminates only if it also raises. -/
theorem verdict_send_failure_falls_back_to_error {σ : Type}
    (D : DecodePipe) (M : Hands σ) (st st' : σ) (e : FrameEvent)
    (es : List FrameEvent) (data : List Char) (v : Bool)
    (hrecv : e.recv = RecvEvent.msg data)
    (hpf : process_frame D M st data = (st', some v))
    (h1 : e.send1Ok = false) :
    (e.send2Ok = true →
       websocket_endpoint D M st (e :: es) =
         ("error" :: (websocket_endpoint D M st' es).1,
          (websocket_endpoint D M st' es).2)) ∧
    (e.send2Ok = false →
       websocket_endpoint D M st (e :: es) = ([], ConnState.Closed)) :=
  ⟨fun h2 => run_ok_retry D M st st' e es data v hrecv hpf h1 h2,
   fun h2 => run_ok_both_fail D M st st' e es data v hrecv hpf h1 h2⟩

theorem verdict_send_failure_falls_back_to_error_witness :
    websocket_endpoint exD exM () [⟨RecvEvent.msg exData, false, true⟩] =
      ("error" :: (websocket_endpoint exD exM () []).1,
       (websocket_endpoint exD exM () []).2) :=
  (verdict_send_failure_falls_back_to_error exD exM () ()
    ⟨RecvEvent.msg exData, false, true⟩ [] exData true rfl rfl rfl).1 rfl

/-- C3 (counterexample): the decoder does not base64-decode the entire
remainder after the first comma.  On `m,QUJD,REVG` the string handed to the
base64 decoder is `QUJD` — the segment between the first and second comma —
while the entire remainder after the first comma is `QUJD,REVG`; the claim's
stated mechanism is therefore false at this input. -/
theorem payload_segment_not_entire_remainder :
    payload_segment exData3 = some ['Q', 'U', 'J', 'D'] ∧
    specRemainderAfterFirstComma exData3 =
      some ['Q', 'U', 'J', 'D', ',', 'R', 'E', 'V', 'G'] ∧
    payload_segment exData3 ≠ specRemainderAfterFirstComma exData3 := by
  refine ⟨rfl, rfl, ?_⟩
  decide

/-- C3 (amended): the decoder base64-decodes the segment of the input lying
strictly between the first and the second comma — equivalently, the prefix of
the remainder after the first comma up to that remainder's own next comma
(the whole remainder only when it contains no further comma); consequently,
for any two input strings whose text after the first comma is identical, the
whole per-frame processing outcome (decoded pixel raster and verdict) is
identical regardless of the metadata segment. -/
theorem payload_segment_determined_by_remainder {σ : Type}
    (D : DecodePipe) (M : Hands σ) :
    (∀ data : List Char,
       payload_segment data =
         (specRemainderAfterFirstComma data).map (fun t => (splitComma t).headD [])) ∧
    (∀ (st : σ) (data₁ data₂ : List Char),
       specRemainderAfterFirstComma data₁ = specRemainderAfterFirstComma data₂ →
       process_frame D M st data₁ = process_frame D M st data₂) := by
  refine ⟨payload_segment_eq, ?_⟩
  intro st data₁ data₂ hrem
  have hseg : payload_segment data₁ = payload_segment data₂ := by
    rw [payload_segment_eq, payload_segment_eq, hrem]
  simp only [process_frame, hseg]

theorem payload_segment_determined_by_remainder_witness :
    process_frame exD exM () ['a', ',', 'x'] = process_frame exD exM () ['b', ',', 'x'] :=
  (payload_segment_determined_by_remainder exD exM).2 () ['a', ',', 'x'] ['b', ',', 'x'] rfl

/-- C4 (counterexample): it is not the case that every received message is
answered by exactly one token that is "start" exactly when the verdict is
true.  With the processing pipeline succeeding with verdict `true` on
`exData`: if the verdict send raises and the fallback succeeds, the one token
sent is "error", not "start"; if both sends raise, the message is answered
with no token at all. -/
theorem token_not_verdict_under_send_failure :
    (process_frame exD exM () exData).2 = some true ∧
    websocket_endpoint exD exM () [⟨RecvEvent.msg exData, false, true⟩] =
      (["error"], ConnState.Open) ∧
    websocket_endpoint exD exM () [⟨RecvEvent.msg exData, false, false⟩] =
      ([], ConnState.Closed) := by
  refine ⟨rfl, rfl, rfl⟩

/-- C4 (amended): every token the loop sends is one of the three fixed
strings "start", "wait", "error"; at most one token is sent per loop
iteration; and whenever the first send attempt of a frame succeeds, the
message is answered by exactly one token — "start" for verdict true, "wait"
for verdict false, "error" when per-frame processing raised. -/
theorem response_token_protocol {σ : Type} (D : DecodePipe) (M : Hands σ) :
    (∀ (st : σ) (e : FrameEvent) (es : List FrameEvent) (data : List Char),
       e.recv = RecvEvent.msg data → e.send1Ok = true →
       (websocket_endpoint D M st (e :: es)).1 =
         response_token (process_frame D M st data).2 ::
           (websocket_endpoint D M (process_frame D M st data).1 es).1) ∧
    (∀ (st : σ) (evs : List FrameEvent),
       (websocket_endpoint D M st evs).1.length ≤ evs.length) ∧
    (∀ (st : σ) (evs : List FrameEvent) (t : String),
       t ∈ (websocket_endpoint D M st evs).1 →
       t = "start" ∨ t = "wait" ∨ t = "error") := by
  refine ⟨?_, run_length_le D M, run_tokens_mem D M⟩
  intro st e es data hrecv h1
  rcases hpf : process_frame D M st data with ⟨st', r⟩
  rcases r with _ | v
  · rw [run_err D M st st' e es data hrecv hpf h1]
    rfl
  · rw [run_ok D M st st' e es data v hrecv hpf h1]
    rcases v with _ | _ <;> rfl

theorem response_token_protocol_witness :
    (websocket_endpoint exD exM () [⟨RecvEvent.msg exData, true, true⟩]).1 =
      response_token (process_frame exD exM () exData).2 ::
        (websocket_endpoint exD exM ((process_frame exD exM () exData).1) []).1 :=
  (response_token_protocol exD exM).1 () ⟨RecvEvent.msg exData, true, true⟩ [] exData rfl rfl

/-- C9 (counterexample): the response token for a frame is not a function of
that frame's content alone.  The source constructs one shared estimator in
video/tracking mode (`static_image_mode=False`, lines 23-28), i.e. an
estimator with cross-frame internal state; for the conforming tracking
estimator `statefulM`, presenting the identical frame `exData` yields "wait"
when it is the first frame processed and "start" when one frame was processed
before it. -/
theorem token_depends_on_history_with_tracking_estimator :
    websocket_endpoint exD statefulM 0 [⟨RecvEvent.msg exData, true, true⟩] =
      (["wait"], ConnState.Open) ∧
    websocket_endpoint exD statefulM 0
        [⟨RecvEvent.msg exData, true, true⟩, ⟨RecvEvent.msg exData, true, true⟩] =
      (["wait", "start"], ConnState.Open) := by
  refine ⟨rfl, rfl⟩

/-- C9 (amended): the server itself keeps no cross-frame state — the
processing outcome is a function of the frame's content and the estimator's
reply — so whenever the shared estimator instance is memoryless, the
processing outcome of a frame does not depend on the estimator state, and
two runs that present the same frame after arbitrary failure-free histories
send the same token for it. -/
theorem stateless_given_memoryless_estimator {σ : Type}
    (D : DecodePipe) (M : Hands σ) (f : Img → Option (List HandLandmarks))
    (Hpure : ∀ st image, M.process st image = (st, f image)) :
    (∀ (st₁ st₂ : σ) (data : List Char),
       (process_frame D M st₁ data).2 = (process_frame D M st₂ data).2) ∧
    (∀ (st₁ st₂ : σ) (pre₁ pre₂ : List FrameEvent) (e : FrameEvent)
       (data : List Char),
       cleanEvents pre₁ → cleanEvents pre₂ →
       e.recv = RecvEvent.msg data → e.send1Ok = true →
       (websocket_endpoint D M st₁ (pre₁ ++ [e])).1.getLast? =
         (websocket_endpoint D M st₂ (pre₂ ++ [e])).1.getLast?) := by
  constructor
  · intro st₁ st₂ data
    exact (process_frame_pure D M f Hpure st₁ st₂ data).2
  · intro st₁ st₂ pre₁ pre₂ e data hc₁ hc₂ hrecv h1
    rw [run_append_pure D M f Hpure st₁ pre₁ [e] hc₁,
        run_append_pure D M f Hpure st₂ pre₂ [e] hc₂,
        run_single_token D M st₁ e data hrecv h1,
        run_single_token D M st₂ e data hrecv h1,
        getLast_append_one, getLast_append_one,
        (process_frame_pure D M f Hpure st₁ st₂ data).2]

theorem stateless_given_memoryless_estimator_witness :
    (websocket_endpoint exD exM () ([] ++ [⟨RecvEvent.msg exData, true, true⟩])).1.getLast? =
      (websocket_endpoint exD exM ()
        ([⟨RecvEvent.msg ['q', ',', 'z'], true, true⟩] ++
          [⟨RecvEvent.msg exData, true, true⟩])).1.getLast? :=
  (stateless_given_memoryless_estimator exD exM (fun _ => some [openHand])
      (fun _ _ => rfl)).2 () ()
    [] [⟨RecvEvent.msg ['q', ',', 'z'], true, true⟩]
    ⟨RecvEvent.msg exData, true, true⟩ exData
    (fun e he => absurd he (List.not_mem_nil e))
    (fun e he => by
      rw [List.mem_singleton] at he
      subst he
      exact ⟨⟨['q', ',', 'z'], rfl⟩, rfl⟩)
    rfl rfl

end MainPy
